import Mathlib

/-!
Verification development for the rate-limiting service
(`rate_limiter` Python package): a shallow embedding of the storage
backends, the two rate-limiting algorithms, the identity resolution and
the limiter orchestrator, with theorems checking the natural-language
specification against the embedded code.

Conventions of the embedding:
* Python floats are modelled as rationals (`ℚ`); wall-clock time is a
  rational number of seconds `t` threaded explicitly through every
  operation that calls `time.time()`.
* Python `int(x)` truncation toward zero is `pyInt`; Python `//` is
  `Int.fdiv` and `%` (with positive divisor) is `Int.emod`.
* Stored string values are classified by format with `StoredVal`:
  `numI n` is the decimal form of the integer `n` (parses with both
  `int()` and `float()`), `numF q` is the form written by `str()` of a
  float (parses with `float()` only, as Python `int("1.0")` raises),
  and `raw s` is any other, non-numeric string (both conversions raise).
* Fallible code returns `Except String`, the error standing for the
  Python exception; state is threaded alongside so that mutations
  performed before an exception are kept, as in the source.
* Python dicts keyed by strings are association lists with
  first-match lookup, first-match replacing insert and erase-all.
-/

/-- First-match lookup in an association list (Python dict read). -/
def alookup {α : Type} (k : String) : List (String × α) → Option α
  | [] => none
  | (k2, v) :: rest => if k2 = k then some v else alookup k rest

/-- Replace the first binding of `k` (or append one): Python dict write. -/
def ainsert {α : Type} (k : String) (v : α) : List (String × α) → List (String × α)
  | [] => [(k, v)]
  | (k2, v2) :: rest => if k2 = k then (k, v) :: rest else (k2, v2) :: ainsert k v rest

/-- Remove every binding of `k`: Python `del d[k]` (no-op when absent). -/
def aerase {α : Type} (k : String) : List (String × α) → List (String × α)
  | [] => []
  | (k2, v2) :: rest => if k2 = k then aerase k rest else (k2, v2) :: aerase k rest

/-- Python `int(x)` on a real number: truncation toward zero. -/
def pyInt (q : ℚ) : ℤ := if 0 ≤ q then ⌊q⌋ else ⌈q⌉

/-- Python `str.lower()` (ASCII view used by the interval names). -/
def pyLower (s : String) : String := ⟨s.data.map Char.toLower⟩

/-- Python `str.strip()`: drop leading and trailing whitespace. -/
def pyStrip (s : String) : String :=
  ⟨((s.data.dropWhile Char.isWhitespace).reverse.dropWhile Char.isWhitespace).reverse⟩

/-- Python `s.split(',')[0]`: the prefix before the first comma. -/
def firstCommaSegment (s : String) : String := ⟨s.data.takeWhile (fun c => c ≠ ',')⟩

/-- Classification of stored string values by numeric format (see module
doc): `numI` integer-formatted, `numF` float-formatted, `raw` non-numeric. -/
inductive StoredVal : Type
  | numI (n : ℤ)
  | numF (q : ℚ)
  | raw (s : String)
deriving DecidableEq, Repr

/-- Python `float(value)`: succeeds on numeric strings, raises otherwise. -/
def parseFloat : StoredVal → Option ℚ
  | .numI n => some (n : ℚ)
  | .numF q => some q
  | .raw _ => none

/-- Python `int(value)`: succeeds only on integer-formatted strings
(`int("1.5")` and `int("junk")` both raise `ValueError`). -/
def parseInt : StoredVal → Option ℤ
  | .numI n => some n
  | .numF _ => none
  | .raw _ => none

/-- State of `MemoryStorage`: the `_data` dict and the `_expirations`
dict mapping keys to their absolute expiration time in seconds. -/
structure MemState : Type where
  data : List (String × StoredVal)
  expirations : List (String × ℚ)
deriving DecidableEq, Repr

namespace MemoryStorage

/-- `MemoryStorage.get`: returns the value unless the key is absent or
expired; an expired key is deleted on the way (lazy expiry). -/
def get (t : ℚ) (st : MemState) (key : String) : Option StoredVal × MemState :=
  match alookup key st.data with
  | none => (none, st)
  | some v =>
    match alookup key st.expirations with
    | some exp =>
      if exp ≤ t then (none, ⟨aerase key st.data, aerase key st.expirations⟩)
      else (some v, st)
    | none => (some v, st)

/-- `MemoryStorage.set`: unconditional overwrite; a truthy `ttl` records
an expiration at `t + ttl`, a falsy one (absent or `0`) deletes any
prior expiration of the key. -/
def set (t : ℚ) (st : MemState) (key : String) (v : StoredVal) (ttl : Option ℚ) : MemState :=
  let d := ainsert key v st.data
  match ttl with
  | some tt => if tt = 0 then ⟨d, aerase key st.expirations⟩
               else ⟨d, ainsert key (t + tt) st.expirations⟩
  | none => ⟨d, aerase key st.expirations⟩

/-- `MemoryStorage.incr`: read (defaulting an absent key to "0"), try
`int(value) + 1`, and on a `ValueError`/`TypeError` reset the value to
"1"; the new value is stored with `set` and no TTL. -/
def incr (t : ℚ) (st : MemState) (key : String) : ℤ × MemState :=
  let g := get t st key
  let value := g.1.getD (.numI 0)
  match parseInt value with
  | some n => (n + 1, set t g.2 key (.numI (n + 1)) none)
  | none => (1, set t g.2 key (.numI 1) none)

/-- `MemoryStorage.expire`: set an expiration on an existing key
(`1` on success, `0` when the key is absent from `_data`). -/
def expire (t : ℚ) (st : MemState) (key : String) (ttl : ℚ) : ℤ × MemState :=
  if (alookup key st.data).isSome then
    (1, ⟨st.data, ainsert key (t + ttl) st.expirations⟩)
  else (0, st)

end MemoryStorage

/-- `get_interval_in_seconds` from `utils.py`: lowercases the interval
name and maps the six known names to seconds, defaulting to 60. -/
def get_interval_in_seconds (interval : String) : ℤ :=
  let i := pyLower interval
  if i = "second" then 1
  else if i = "minute" then 60
  else if i = "hour" then 60 * 60
  else if i = "day" then 24 * 60 * 60
  else if i = "week" then 7 * 24 * 60 * 60
  else if i = "month" then 30 * 24 * 60 * 60
  else 60

/-- The per-check options read by the algorithms (`options.get` with
defaults): rate, interval name and — stored but never read by the
algorithms — an algorithm name. -/
structure Options : Type where
  rate : Option ℤ := none
  interval : Option String := none
  algorithm : Option String := none
deriving DecidableEq, Repr

/-- The result dict of a check: keys `allowed`, `limit`, `remaining`,
`reset`, `retry_after`. -/
structure Decision : Type where
  allowed : Bool
  limit : ℤ
  remaining : ℤ
  reset : ℤ
  retry_after : ℤ
deriving DecidableEq, Repr

namespace TokenBucket

/-- `TokenBucket._get_bucket_state`: read both keys, then convert —
`float(tokens)` (default: full bucket `rate`) and `int(last_update)`
(default: now in ms). A malformed stored string raises `ValueError`,
modelled as `Except.error`; the state after the two reads is returned
in either case. -/
def get_bucket_state (t : ℚ) (st : MemState) (bucket_key last_update_key : String)
    (rate : ℤ) : Except String (ℚ × ℤ) × MemState :=
  let g1 := MemoryStorage.get t st bucket_key
  let g2 := MemoryStorage.get t g1.2 last_update_key
  let tokE : Except String ℚ :=
    match g1.1 with
    | none => .ok ((rate : ℚ))
    | some v =>
      match parseFloat v with
      | some q => .ok q
      | none => .error "ValueError: could not convert string to float"
  let luE : Except String ℤ :=
    match g2.1 with
    | none => .ok (pyInt (t * 1000))
    | some v =>
      match parseInt v with
      | some n => .ok n
      | none => .error "ValueError: invalid literal for int"
  match tokE with
  | .error e => (.error e, g2.2)
  | .ok q =>
    match luE with
    | .error e => (.error e, g2.2)
    | .ok n => (.ok (q, n), g2.2)

/-- `TokenBucket.check`: continuous refill at `rate / interval_seconds`
tokens per second, capped at `rate`; allowed when at least one token is
available, consuming it; state persisted with TTL `interval_seconds`. -/
def check (t : ℚ) (st : MemState) (identifier : String) (opts : Options) :
    Except String Decision × MemState :=
  let rate : ℤ := opts.rate.getD 60
  let interval : String := opts.interval.getD "minute"
  let interval_seconds : ℤ := get_interval_in_seconds interval
  let bucket_key : String := "tb:" ++ identifier
  let last_update_key : String := "tb:" ++ identifier ++ ":last"
  match get_bucket_state t st bucket_key last_update_key rate with
  | (.error e, st1) => (.error e, st1)
  | (.ok (current_tokens, last_update), st1) =>
    let now : ℤ := pyInt (t * 1000)
    let elapsed_ms : ℤ := now - last_update
    let refill_rate : ℚ := (rate : ℚ) / (interval_seconds : ℚ)
    let refill_tokens : ℚ := ((elapsed_ms : ℚ) / 1000) * refill_rate
    let new_tokens0 : ℚ := min (current_tokens + refill_tokens) (rate : ℚ)
    let allowed : Bool := if new_tokens0 ≥ 1 then true else false
    let new_tokens : ℚ := if allowed then new_tokens0 - 1 else new_tokens0
    let st2 := MemoryStorage.set t st1 bucket_key (.numF new_tokens)
      (some (interval_seconds : ℚ))
    let st3 := MemoryStorage.set t st2 last_update_key (.numI now)
      (some (interval_seconds : ℚ))
    let ms_until_refill : ℚ :=
      if allowed then (((rate : ℚ) - new_tokens) / refill_rate) * 1000
      else ((1 - new_tokens) / refill_rate) * 1000
    (.ok { allowed := allowed, limit := rate, remaining := pyInt new_tokens,
           reset := pyInt (ms_until_refill / 1000),
           retry_after := if allowed then 0 else pyInt (ms_until_refill / 1000) }, st3)

end TokenBucket

namespace SlidingWindow

/-- The per-counter conversion of `SlidingWindow._get_window_counts`:
`int(value)` with default 0 when the key was absent; a malformed stored
string raises `ValueError`, modelled as `Except.error`. -/
def count_of_value : Option StoredVal → Except String ℤ
  | none => .ok 0
  | some v =>
    match parseInt v with
    | some n => .ok n
    | none => .error "ValueError: invalid literal for int"

/-- `SlidingWindow._get_window_counts`, continued: read both window
counters and convert each with `count_of_value`. -/
def get_window_counts (t : ℚ) (st : MemState) (current_key previous_key : String) :
    Except String (ℤ × ℤ) × MemState :=
  let g1 := MemoryStorage.get t st current_key
  let g2 := MemoryStorage.get t g1.2 previous_key
  match count_of_value g1.1 with
  | .error e => (.error e, g2.2)
  | .ok c =>
    match count_of_value g2.1 with
    | .error e => (.error e, g2.2)
    | .ok p => (.ok (c, p), g2.2)

/-- `SlidingWindow.check`: weighted dual-window counter; allowed when
the weighted count is below the rate, then the current window counter
is incremented and given a TTL of twice the interval. -/
def check (t : ℚ) (st : MemState) (identifier : String) (opts : Options) :
    Except String Decision × MemState :=
  let rate : ℤ := opts.rate.getD 60
  let interval : String := opts.interval.getD "minute"
  let interval_seconds : ℤ := get_interval_in_seconds interval
  let now : ℤ := pyInt t
  let current_window : ℤ := Int.fdiv now interval_seconds * interval_seconds
  let previous_window : ℤ := current_window - interval_seconds
  let current_window_key : String := "sw:" ++ identifier ++ ":" ++ toString current_window
  let previous_window_key : String := "sw:" ++ identifier ++ ":" ++ toString previous_window
  match get_window_counts t st current_window_key previous_window_key with
  | (.error e, st1) => (.error e, st1)
  | (.ok (current_count, previous_count), st1) =>
    let window_position : ℚ := ((Int.emod now interval_seconds : ℤ) : ℚ) / (interval_seconds : ℚ)
    let weighted_count : ℚ := (current_count : ℚ) + (previous_count : ℚ) * (1 - window_position)
    let allowed : Bool := if weighted_count < (rate : ℚ) then true else false
    let st2 : MemState :=
      if allowed then
        let r1 := MemoryStorage.incr t st1 current_window_key
        (MemoryStorage.expire t r1.2 current_window_key ((interval_seconds * 2 : ℤ) : ℚ)).2
      else st1
    let remaining : ℤ :=
      max 0 (pyInt ((rate : ℚ) - weighted_count - (if allowed then 1 else 0)))
    let reset : ℤ := interval_seconds - Int.emod now interval_seconds
    (.ok { allowed := allowed, limit := rate, remaining := remaining,
           reset := reset, retry_after := if allowed then 0 else reset }, st2)

end SlidingWindow

/-- The request descriptor as seen by `normalize_client_info`: every
optional attribute or header is an `Option`, `none` meaning absent.
Present attributes carry their string value (the embedding does not
model attributes that are present but hold a non-string). -/
structure Request : Type where
  client_host : Option String := none
  remote_addr : Option String := none
  x_forwarded_for : Option String := none
  x_real_ip : Option String := none
  x_api_key : Option String := none
  user_id : Option String := none
  path : String := "/"
deriving DecidableEq, Repr

/-- The header-based IP fallback inside `normalize_client_info`:
`headers.get('x-forwarded-for', headers.get('x-real-ip', 'unknown'))`,
then a truthy value containing a comma is cut at the first comma and
stripped. -/
def headerIp (req : Request) : String :=
  let ip := req.x_forwarded_for.getD (req.x_real_ip.getD "unknown")
  if ip ≠ "" ∧ ip.data.contains ',' then pyStrip (firstCommaSegment ip) else ip

/-- The dict returned by `normalize_client_info` (the `user_agent`
entry, unused by the limiter, is not modelled). -/
structure ClientInfo : Type where
  ip : String
  user_id : Option String
  api_key : Option String
  path : String
deriving DecidableEq, Repr

/-- `normalize_client_info` from `utils.py`: IP from the framework
attribute when present, else a truthy `remote_addr`, else the header
fallback; user id and API key passed through. -/
def normalize_client_info (req : Request) : ClientInfo :=
  let ip : String :=
    match req.client_host with
    | some h => h
    | none =>
      match req.remote_addr with
      | some ra => if ra = "" then headerIp req else ra
      | none => headerIp req
  { ip := ip, user_id := req.user_id, api_key := req.x_api_key, path := req.path }

/-- Construction-time configuration of the limiter that the claims
depend on: default algorithm name, identity mode, per-route override
table, and the rate/interval view of the constructor options that the
algorithms fall back to. -/
structure LimiterConfig : Type where
  algorithm : String := "token_bucket"
  client_identifier : Option String := none
  endpoint_overrides : List (String × Options) := []
  default_options : Options := {}
deriving DecidableEq, Repr

/-- The process-wide metrics counters of a limiter instance. -/
structure Metrics : Type where
  requests_total : ℤ
  throttled_total : ℤ
deriving DecidableEq, Repr

/-- Mutable state of a limiter instance: its metrics and its storage. -/
structure LimiterState : Type where
  metrics : Metrics
  store : MemState
deriving DecidableEq, Repr

namespace RateLimiter

/-- `RateLimiter.get_client_identifier`: authenticated user id (only
when the `client_identifier` option is `user_id`), else API key, else
IP, each prefixed with its kind. -/
def get_client_identifier (cfg : Option String) (req : Request) : String :=
  let c := normalize_client_info req
  let after_user : String :=
    match c.api_key with
    | some k => if k ≠ "" then "apikey:" ++ k else "ip:" ++ c.ip
    | none => "ip:" ++ c.ip
  match c.user_id with
  | some uid => if uid ≠ "" ∧ cfg = some "user_id" then "user:" ++ uid else after_user
  | none => after_user

/-- `RateLimiter.check`: bump `requests_total`, resolve identity and
the per-route effective options, dispatch on the instance-level
`self.algorithm` name, and bump `throttled_total` on a deny. On an
algorithm error the exception propagates but the already-performed
mutations (metrics, storage reads) are kept. -/
def check (t : ℚ) (cfg : LimiterConfig) (ls : LimiterState) (req : Request)
    (callOpts : Option Options) : Except String Decision × LimiterState :=
  let m1 : Metrics := { ls.metrics with requests_total := ls.metrics.requests_total + 1 }
  let identifier : String := get_client_identifier cfg.client_identifier req
  let path : String := (normalize_client_info req).path
  let effective : Options :=
    (alookup path cfg.endpoint_overrides).getD (callOpts.getD cfg.default_options)
  let inner : Except String Decision × MemState :=
    if cfg.algorithm = "sliding_window" then SlidingWindow.check t ls.store identifier effective
    else TokenBucket.check t ls.store identifier effective
  match inner.1 with
  | .ok d =>
    let m2 : Metrics :=
      if d.allowed then m1 else { m1 with throttled_total := m1.throttled_total + 1 }
    (.ok d, ⟨m2, inner.2⟩)
  | .error e => (.error e, ⟨m1, inner.2⟩)

/-- `RateLimiter.get_metrics`: `dict(self.metrics)` — a snapshot of the
counters. -/
def get_metrics (ls : LimiterState) : Metrics := ls.metrics

end RateLimiter

deriving instance DecidableEq for Except

/-- A concrete per-route policy naming the sliding-window algorithm
(used by the dispatch and metrics scenarios). -/
def exOptions : Options :=
  { rate := some 5, interval := some "minute", algorithm := some "sliding_window" }

/-- A concrete limiter configuration: default algorithm token bucket,
with a per-route override for "/special" whose policy is `exOptions`. -/
def exConfig : LimiterConfig :=
  { algorithm := "token_bucket", client_identifier := none,
    endpoint_overrides := [("/special", exOptions)], default_options := {} }

/-- A concrete request to the overridden route, carrying no identity
signal at all. -/
def exRequest : Request := { path := "/special" }

/-- A fresh limiter state: zero metrics, empty store. -/
def exState : LimiterState := ⟨⟨0, 0⟩, ⟨[], []⟩⟩

/-- Specification expression (the claim's refill formula): stored token
count plus elapsed_seconds × (rate / interval_seconds), capped so that
the tokens never exceed rate. Elapsed time is in milliseconds. -/
def refilledTokens (ct : ℚ) (lu nowMs rate iv : ℤ) : ℚ :=
  min (ct + ((nowMs - lu : ℤ) : ℚ) / 1000 * ((rate : ℚ) / (iv : ℚ))) (rate : ℚ)

/-- The storage key of the current window used by the sliding-window
check at time `t` with interval `iv` seconds. -/
def swCurrentKey (identifier : String) (t : ℚ) (iv : ℤ) : String :=
  "sw:" ++ identifier ++ ":" ++ toString (Int.fdiv (pyInt t) iv * iv)

/-- The storage key of the previous window (one interval earlier). -/
def swPreviousKey (identifier : String) (t : ℚ) (iv : ℤ) : String :=
  "sw:" ++ identifier ++ ":" ++ toString (Int.fdiv (pyInt t) iv * iv - iv)

theorem alookup_ainsert_self {α : Type} (k : String) (v : α) (l : List (String × α)) :
    alookup k (ainsert k v l) = some v := by
  induction l with
  | nil => simp [alookup, ainsert]
  | cons hd tl ih =>
    by_cases h : hd.1 = k
    · simp [alookup, ainsert, h]
    · simp [alookup, ainsert, h, ih]

theorem alookup_ainsert_ne {α : Type} {k k2 : String} (v : α) (l : List (String × α))
    (h : k ≠ k2) : alookup k (ainsert k2 v l) = alookup k l := by
  have h4 : ¬(k2 = k) := fun hh => h (Eq.symm hh)
  induction l with
  | nil => simp [alookup, ainsert, h4]
  | cons hd tl ih =>
    by_cases h2 : hd.1 = k2
    · have h3 : ¬(hd.1 = k) := by rw [h2]; exact h4
      simp [alookup, ainsert, h2, h3, h4]
    · by_cases h3 : hd.1 = k
      · simp [alookup, ainsert, h2, h3, h]
      · simp [alookup, ainsert, h2, h3, ih]

theorem alookup_aerase_self {α : Type} (k : String) (l : List (String × α)) :
    alookup k (aerase k l) = none := by
  induction l with
  | nil => simp [alookup, aerase]
  | cons hd tl ih =>
    by_cases h : hd.1 = k
    · simp [aerase, h, ih]
    · simp [alookup, aerase, h, ih]

theorem alookup_aerase_ne {α : Type} {k k2 : String} (l : List (String × α))
    (h : k ≠ k2) : alookup k (aerase k2 l) = alookup k l := by
  have h4 : ¬(k2 = k) := fun hh => h (Eq.symm hh)
  induction l with
  | nil => simp [aerase]
  | cons hd tl ih =>
    by_cases h2 : hd.1 = k2
    · have h3 : ¬(hd.1 = k) := by rw [h2]; exact h4
      simp [alookup, aerase, h2, h3, h4, ih]
    · by_cases h3 : hd.1 = k
      · simp [alookup, aerase, h2, h3, h]
      · simp [alookup, aerase, h2, h3, ih]

theorem alookup_aerase_none {α : Type} {k : String} (k2 : String) {l : List (String × α)}
    (h : alookup k l = none) : alookup k (aerase k2 l) = none := by
  by_cases hk : k = k2
  · rw [hk]; exact alookup_aerase_self k2 l
  · rw [alookup_aerase_ne l hk]; exact h

theorem pyInt_nonneg {q : ℚ} (h : 0 ≤ q) : 0 ≤ pyInt q := by
  rw [pyInt, if_pos h]
  exact Int.le_floor.2 (by exact_mod_cast h)

theorem pyInt_le_int {q : ℚ} {n : ℤ} (h : q ≤ (n : ℚ)) : pyInt q ≤ n := by
  rw [pyInt]
  split
  · have h1 : (⌊q⌋ : ℚ) ≤ (n : ℚ) := le_trans (Int.floor_le q) h
    exact_mod_cast h1
  · exact Int.ceil_le.2 h

theorem get_interval_in_seconds_pos (s : String) : 0 < get_interval_in_seconds s := by
  rw [get_interval_in_seconds]
  repeat' split
  all_goals norm_num

/-- Claim C8 (counterexample): the interval string "HOUR" is not one of
the six enumerated names `second, minute, hour, day, week, month`, yet
the conversion returns 3600 rather than 60 — the lookup lowercases its
argument first, so the claim as stated fails on case variants. -/
theorem C8_interval_counterexample :
    "HOUR" ∉ (["second", "minute", "hour", "day", "week", "month"] : List String) ∧
    get_interval_in_seconds "HOUR" = 3600 ∧
    get_interval_in_seconds "HOUR" ≠ 60 := by decide

/-- Claim C8 (amended): for every interval string whose lowercasing is
not one of `second, minute, hour, day, week, month`, the conversion
returns 60 seconds rather than failing. -/
theorem C8_interval_default (s : String)
    (h : pyLower s ∉ (["second", "minute", "hour", "day", "week", "month"] : List String)) :
    get_interval_in_seconds s = 60 := by
  simp only [List.mem_cons, List.not_mem_nil, or_false, not_or] at h
  obtain ⟨h1, h2, h3, h4, h5, h6⟩ := h
  simp [get_interval_in_seconds, h1, h2, h3, h4, h5, h6]

/-- Witness for C8: the unrecognized interval "fortnight". -/
theorem C8_interval_default_witness :
    pyLower "fortnight" ∉ (["second", "minute", "hour", "day", "week", "month"] : List String) ∧
    get_interval_in_seconds "fortnight" = 60 :=
  ⟨by decide, C8_interval_default "fortnight" (by decide)⟩

/-- Claim C10: in the in-process storage, `incr` on a key that currently
has an expiration set stores the new value through `set` with no TTL,
which deletes the expiration — the incremented counter persists until an
explicit `expire`. -/
theorem C10_incr_clears_expiration (t : ℚ) (st : MemState) (k : String)
    (h : alookup k st.expirations ≠ none) :
    alookup k (MemoryStorage.incr t st k).2.expirations = none ∧
    alookup k (MemoryStorage.incr t st k).2.data
      = some (StoredVal.numI (MemoryStorage.incr t st k).1) := by
  simp only [MemoryStorage.incr, MemoryStorage.set]
  rcases hp : parseInt ((MemoryStorage.get t st k).1.getD (StoredVal.numI 0)) with _ | n <;>
    simp [hp, alookup_aerase_self, alookup_ainsert_self]

/-- Witness for C10: a key with value "5" expiring at time 2000,
incremented at time 1000. -/
theorem C10_witness :
    alookup "k" (MemoryStorage.incr 1000
        ⟨[("k", StoredVal.numI 5)], [("k", 2000)]⟩ "k").2.expirations = none ∧
    alookup "k" (MemoryStorage.incr 1000
        ⟨[("k", StoredVal.numI 5)], [("k", 2000)]⟩ "k").2.data
      = some (StoredVal.numI (MemoryStorage.incr 1000
          ⟨[("k", StoredVal.numI 5)], [("k", 2000)]⟩ "k").1) :=
  C10_incr_clears_expiration 1000 ⟨[("k", StoredVal.numI 5)], [("k", 2000)]⟩ "k" (by decide)

/-- Claim C7 (counterexample): a token-bucket check whose stored token
count is the non-numeric string "corrupt" does not treat the value as
absent — `float()` raises and the check aborts with the error. -/
theorem C7_malformed_counterexample :
    (TokenBucket.check 1000 ⟨[("tb:cli", StoredVal.raw "corrupt")], []⟩ "cli" {}).1
      = Except.error "ValueError: could not convert string to float" := by decide

/-- Claim C7 (amended): malformed stored numeric state is tolerated only
by the in-process storage increment, which resets the value to 1; the
token-bucket and sliding-window state reads raise a conversion error on
a malformed string, so those checks abort instead of completing. -/
theorem C7_malformed_amended (t : ℚ) (st : MemState) (k identifier s1 s2 s3 : String)
    (opts : Options) :
    ((MemoryStorage.get t st k).1 = some (.raw s1) →
      (MemoryStorage.incr t st k).1 = 1 ∧
      alookup k (MemoryStorage.incr t st k).2.data = some (.numI 1)) ∧
    ((MemoryStorage.get t st ("tb:" ++ identifier)).1 = some (.raw s2) →
      ∃ e st2, TokenBucket.check t st identifier opts = (Except.error e, st2)) ∧
    ((MemoryStorage.get t st ("sw:" ++ identifier ++ ":" ++
        toString (Int.fdiv (pyInt t) (get_interval_in_seconds (opts.interval.getD "minute")) *
          get_interval_in_seconds (opts.interval.getD "minute")))).1 = some (.raw s3) →
      ∃ e st2, SlidingWindow.check t st identifier opts = (Except.error e, st2)) := by
  refine ⟨?_, ?_, ?_⟩
  · intro hg
    simp only [MemoryStorage.incr, MemoryStorage.set, hg]
    simp [parseInt, alookup_ainsert_self]
  · intro hg
    simp only [TokenBucket.check, TokenBucket.get_bucket_state, hg]
    simp only [parseFloat]
    exact ⟨_, _, rfl⟩
  · intro hg
    simp only [SlidingWindow.check, SlidingWindow.get_window_counts, hg]
    simp only [SlidingWindow.count_of_value, parseInt]
    exact ⟨_, _, rfl⟩

/-- Witness for C7: one store holding malformed strings under a plain
key, a token-bucket key and the sliding-window key current at t=1000. -/
theorem C7_witness :
    ((MemoryStorage.incr 1000
        ⟨[("x", StoredVal.raw "a"), ("tb:cli", StoredVal.raw "b"),
          ("sw:cli:960", StoredVal.raw "c")], []⟩ "x").1 = 1) ∧
    (∃ e st2, TokenBucket.check 1000
        ⟨[("x", StoredVal.raw "a"), ("tb:cli", StoredVal.raw "b"),
          ("sw:cli:960", StoredVal.raw "c")], []⟩ "cli" {} = (Except.error e, st2)) ∧
    (∃ e st2, SlidingWindow.check 1000
        ⟨[("x", StoredVal.raw "a"), ("tb:cli", StoredVal.raw "b"),
          ("sw:cli:960", StoredVal.raw "c")], []⟩ "cli" {} = (Except.error e, st2)) := by
  obtain ⟨h1, h2, h3⟩ := C7_malformed_amended 1000
    ⟨[("x", StoredVal.raw "a"), ("tb:cli", StoredVal.raw "b"),
      ("sw:cli:960", StoredVal.raw "c")], []⟩ "x" "cli" "a" "b" "c" {}
  exact ⟨(h1 (by decide)).1, h2 (by decide), h3 (by decide)⟩

/-- Evaluation of the orchestrator check in the `exConfig` scenario: the
override policy is found, yet the token-bucket algorithm runs (its two
keys are written to the store). -/
theorem exCheck_eval :
    RateLimiter.check 1000 exConfig exState exRequest none =
      (Except.ok { allowed := true, limit := 5, remaining := 4, reset := 12, retry_after := 0 },
       ⟨⟨1, 0⟩,
        ⟨[("tb:ip:unknown", StoredVal.numF 4), ("tb:ip:unknown:last", StoredVal.numI 1000000)],
         [("tb:ip:unknown", 1060), ("tb:ip:unknown:last", 1060)]⟩⟩) := by
  have hs : TokenBucket.get_bucket_state 1000 (⟨[], []⟩ : MemState)
      ("tb:" ++ "ip:unknown") ("tb:" ++ "ip:unknown" ++ ":last") 5
      = (Except.ok (5, 1000000), ⟨[], []⟩) := by
    simp only [TokenBucket.get_bucket_state, MemoryStorage.get, alookup]
    norm_num [pyInt]
  have hiv : get_interval_in_seconds "minute" = 60 := by decide
  have hid : RateLimiter.get_client_identifier exConfig.client_identifier exRequest
      = "ip:unknown" := by decide
  have hpath : (normalize_client_info exRequest).path = "/special" := by decide
  have heff : alookup "/special" exConfig.endpoint_overrides = some exOptions := by decide
  have halg : ¬(exConfig.algorithm = "sliding_window") := by decide
  have hstore : exState.store = (⟨[], []⟩ : MemState) := rfl
  have hmet : exState.metrics = (⟨0, 0⟩ : Metrics) := rfl
  simp only [RateLimiter.check, hid, hpath, heff, halg, hstore, hmet, Option.getD_some,
    Option.getD_none, if_neg, ite_false]
  simp only [exOptions, TokenBucket.check, Option.getD_some, hiv, hs]
  simp only [MemoryStorage.set, ainsert]
  norm_num [pyInt]
  decide

/-- Evaluation of the sliding-window check on the same fresh store and
override policy: had the override algorithm been dispatched, its window
counter key would have been written. -/
theorem exSwCheck_eval :
    SlidingWindow.check 1000 (⟨[], []⟩ : MemState) "ip:unknown" exOptions =
      (Except.ok { allowed := true, limit := 5, remaining := 4, reset := 20, retry_after := 0 },
       ⟨[("sw:ip:unknown:960", StoredVal.numI 1)], [("sw:ip:unknown:960", 1120)]⟩) := by
  have hiv : get_interval_in_seconds "minute" = 60 := by decide
  have hcw : Int.fdiv (pyInt 1000) 60 * 60 = 960 := by decide
  have hem : Int.emod (pyInt 1000) 60 = 40 := by decide
  have hgw : SlidingWindow.get_window_counts 1000 (⟨[], []⟩ : MemState)
      ("sw:" ++ "ip:unknown" ++ ":" ++ toString (960 : ℤ))
      ("sw:" ++ "ip:unknown" ++ ":" ++ toString (960 - 60 : ℤ))
      = (Except.ok (0, 0), ⟨[], []⟩) := by decide
  simp only [SlidingWindow.check, exOptions, Option.getD_some, hiv, hcw, hem, hgw]
  simp only [MemoryStorage.incr, MemoryStorage.get, MemoryStorage.set, MemoryStorage.expire,
    alookup, ainsert, aerase, parseInt]
  norm_num [pyInt]
  decide

/-- Claim C1 (counterexample): in configuration `exConfig` the request
path has an override policy naming the sliding-window algorithm, yet
the check is performed by the limiter default (token bucket): the
token-bucket keys are written, the sliding-window counter key that a
sliding-window check would have created (see `exSwCheck_eval`) is
absent, so the check did not dispatch to the algorithm named in the
effective policy. -/
theorem C1_dispatch_counterexample :
    alookup "/special" exConfig.endpoint_overrides = some exOptions ∧
    exOptions.algorithm = some "sliding_window" ∧
    (RateLimiter.check 1000 exConfig exState exRequest none).1
      = Except.ok { allowed := true, limit := 5, remaining := 4, reset := 12, retry_after := 0 } ∧
    alookup "tb:ip:unknown" (RateLimiter.check 1000 exConfig exState exRequest none).2.store.data
      = some (StoredVal.numF 4) ∧
    alookup "sw:ip:unknown:960" (RateLimiter.check 1000 exConfig exState exRequest none).2.store.data
      = none ∧
    alookup "sw:ip:unknown:960" (SlidingWindow.check 1000 exState.store "ip:unknown" exOptions).2.data
      = some (StoredVal.numI 1) := by
  rw [exCheck_eval]
  have hst : exState.store = (⟨[], []⟩ : MemState) := rfl
  rw [hst, exSwCheck_eval]
  decide

/-- Claim C1 (amended): the orchestrator check increments
`requests_total`, resolves identity and the per-route effective
options, but dispatches on the limiter-level default algorithm
(`self.algorithm`), not on the algorithm named in the effective
options — the options' algorithm field is never read by either
algorithm — and increments `throttled_total` exactly when the returned
decision is denied. -/
theorem C1_dispatch_amended (t : ℚ) (cfg : LimiterConfig) (ls : LimiterState) (req : Request)
    (copts : Option Options) (r : Except String Decision) (ls2 : LimiterState)
    (h : RateLimiter.check t cfg ls req copts = (r, ls2)) :
    r = (if cfg.algorithm = "sliding_window"
         then SlidingWindow.check t ls.store (RateLimiter.get_client_identifier cfg.client_identifier req)
                ((alookup (normalize_client_info req).path cfg.endpoint_overrides).getD
                  (copts.getD cfg.default_options))
         else TokenBucket.check t ls.store (RateLimiter.get_client_identifier cfg.client_identifier req)
                ((alookup (normalize_client_info req).path cfg.endpoint_overrides).getD
                  (copts.getD cfg.default_options))).1 ∧
    ls2.store = (if cfg.algorithm = "sliding_window"
         then SlidingWindow.check t ls.store (RateLimiter.get_client_identifier cfg.client_identifier req)
                ((alookup (normalize_client_info req).path cfg.endpoint_overrides).getD
                  (copts.getD cfg.default_options))
         else TokenBucket.check t ls.store (RateLimiter.get_client_identifier cfg.client_identifier req)
                ((alookup (normalize_client_info req).path cfg.endpoint_overrides).getD
                  (copts.getD cfg.default_options))).2 ∧
    ls2.metrics.requests_total = ls.metrics.requests_total + 1 ∧
    ls2.metrics.throttled_total = ls.metrics.throttled_total +
      (match r with | .ok d => if d.allowed then 0 else 1 | .error _ => 0) ∧
    (∀ a, TokenBucket.check t ls.store (RateLimiter.get_client_identifier cfg.client_identifier req)
        { ((alookup (normalize_client_info req).path cfg.endpoint_overrides).getD
            (copts.getD cfg.default_options)) with algorithm := a }
      = TokenBucket.check t ls.store (RateLimiter.get_client_identifier cfg.client_identifier req)
        ((alookup (normalize_client_info req).path cfg.endpoint_overrides).getD
          (copts.getD cfg.default_options))) ∧
    (∀ a, SlidingWindow.check t ls.store (RateLimiter.get_client_identifier cfg.client_identifier req)
        { ((alookup (normalize_client_info req).path cfg.endpoint_overrides).getD
            (copts.getD cfg.default_options)) with algorithm := a }
      = SlidingWindow.check t ls.store (RateLimiter.get_client_identifier cfg.client_identifier req)
        ((alookup (normalize_client_info req).path cfg.endpoint_overrides).getD
          (copts.getD cfg.default_options))) := by
  simp only [RateLimiter.check] at h
  split at h
  next d heq =>
    cases h
    refine ⟨by rw [heq], rfl, ?_, ?_, fun a => rfl, fun a => rfl⟩ <;>
      by_cases ha : d.allowed <;> simp [ha]
  next e heq =>
    cases h
    refine ⟨by rw [heq], rfl, by simp, by simp, fun a => rfl, fun a => rfl⟩

/-- Witness for the amended C1 at the `exConfig` scenario: the result is
the token-bucket result (the default algorithm), and `requests_total`
was incremented. -/
theorem C1_dispatch_amended_witness :
    (RateLimiter.check 1000 exConfig exState exRequest none).2.metrics.requests_total
      = exState.metrics.requests_total + 1 ∧
    (RateLimiter.check 1000 exConfig exState exRequest none).1
      = (TokenBucket.check 1000 exState.store
          (RateLimiter.get_client_identifier exConfig.client_identifier exRequest)
          ((alookup (normalize_client_info exRequest).path exConfig.endpoint_overrides).getD
            (Option.getD none exConfig.default_options))).1 := by
  obtain ⟨h1, h2, h3, h4, h5, h6⟩ :=
    C1_dispatch_amended 1000 exConfig exState exRequest none _ _ exCheck_eval
  have halg : ¬(exConfig.algorithm = "sliding_window") := by decide
  constructor
  · rw [exCheck_eval]; exact h3
  · rw [exCheck_eval]
    rw [if_neg halg] at h1
    exact h1

/-- Claim C9: every orchestrator check increments `requests_total` by
exactly one and increments `throttled_total` by one exactly when the
returned decision is denied (unchanged when the algorithm raised); both
counters are monotonically non-decreasing, and `get_metrics` returns
the counters themselves as a snapshot without touching the state. -/
theorem C9_metrics_evolution (t : ℚ) (cfg : LimiterConfig) (ls : LimiterState) (req : Request)
    (copts : Option Options) (r : Except String Decision) (ls2 : LimiterState)
    (h : RateLimiter.check t cfg ls req copts = (r, ls2)) :
    ls2.metrics.requests_total = ls.metrics.requests_total + 1 ∧
    ls2.metrics.throttled_total = ls.metrics.throttled_total +
      (match r with | .ok d => if d.allowed then 0 else 1 | .error _ => 0) ∧
    ls.metrics.requests_total ≤ ls2.metrics.requests_total ∧
    ls.metrics.throttled_total ≤ ls2.metrics.throttled_total ∧
    RateLimiter.get_metrics ls2 = ls2.metrics := by
  simp only [RateLimiter.check] at h
  split at h
  next d heq =>
    cases h
    refine ⟨?_, ?_, ?_, ?_, rfl⟩ <;> by_cases ha : d.allowed <;> simp [ha] <;> omega
  next e heq =>
    cases h
    refine ⟨by simp, by simp, by simp, by simp, rfl⟩

/-- Witness for C9 at the `exConfig` scenario: the allowed decision
leaves `throttled_total` unchanged while `requests_total` grows by 1. -/
theorem C9_witness :
    (RateLimiter.check 1000 exConfig exState exRequest none).2.metrics.requests_total
      = exState.metrics.requests_total + 1 ∧
    (RateLimiter.check 1000 exConfig exState exRequest none).2.metrics.throttled_total
      = exState.metrics.throttled_total ∧
    RateLimiter.get_metrics (RateLimiter.check 1000 exConfig exState exRequest none).2
      = (RateLimiter.check 1000 exConfig exState exRequest none).2.metrics := by
  obtain ⟨h1, h2, h3, h4, h5⟩ :=
    C9_metrics_evolution 1000 exConfig exState exRequest none _ _ exCheck_eval
  rw [exCheck_eval]
  exact ⟨h1, by rw [h2]; rfl, h5⟩

theorem bool_if_true_iff {c : Prop} [Decidable c] : ((if c then true else false) = true) ↔ c := by
  by_cases h : c <;> simp [h]

theorem bool_if_prop {c : Prop} [Decidable c] {α : Type} (a b : α) :
    (if (if c then true else false) = true then a else b) = if c then a else b := by
  by_cases h : c <;> simp [h]

theorem bool_if_false_iff {c : Prop} [Decidable c] : ((if c then true else false) = false) ↔ ¬c := by
  by_cases h : c <;> simp [h]

/-- Claim C5: for a token-bucket check that read state `(ct, lu)`, the
refilled count is `ct + elapsed_seconds × (rate / interval_seconds)`
capped at `rate` (never over-filling), the request is allowed exactly
when that count is at least 1, and the persisted token count is the
refilled count minus exactly one token when allowed (unchanged
otherwise), stored together with the new timestamp. -/
theorem C5_token_bucket_spec (t : ℚ) (st st1 st2 : MemState) (identifier : String)
    (opts : Options) (ct : ℚ) (lu : ℤ) (d : Decision)
    (hget : TokenBucket.get_bucket_state t st ("tb:" ++ identifier)
        ("tb:" ++ identifier ++ ":last") (opts.rate.getD 60) = (Except.ok (ct, lu), st1))
    (hne : ("tb:" ++ identifier) ≠ ("tb:" ++ identifier ++ ":last"))
    (hrun : TokenBucket.check t st identifier opts = (Except.ok d, st2)) :
    (d.allowed = true ↔
      refilledTokens ct lu (pyInt (t * 1000)) (opts.rate.getD 60)
        (get_interval_in_seconds (opts.interval.getD "minute")) ≥ 1) ∧
    refilledTokens ct lu (pyInt (t * 1000)) (opts.rate.getD 60)
        (get_interval_in_seconds (opts.interval.getD "minute"))
      ≤ ((opts.rate.getD 60 : ℤ) : ℚ) ∧
    alookup ("tb:" ++ identifier) st2.data
      = some (StoredVal.numF
          (if refilledTokens ct lu (pyInt (t * 1000)) (opts.rate.getD 60)
                (get_interval_in_seconds (opts.interval.getD "minute")) ≥ 1
           then refilledTokens ct lu (pyInt (t * 1000)) (opts.rate.getD 60)
                (get_interval_in_seconds (opts.interval.getD "minute")) - 1
           else refilledTokens ct lu (pyInt (t * 1000)) (opts.rate.getD 60)
                (get_interval_in_seconds (opts.interval.getD "minute")))) ∧
    alookup ("tb:" ++ identifier ++ ":last") st2.data
      = some (StoredVal.numI (pyInt (t * 1000))) := by
  have hiv := get_interval_in_seconds_pos (opts.interval.getD "minute")
  have hne0 : ((get_interval_in_seconds (opts.interval.getD "minute") : ℤ) : ℚ) ≠ 0 := by
    exact_mod_cast ne_of_gt hiv
  simp only [TokenBucket.check, hget, MemoryStorage.set, hne0, reduceIte] at hrun
  rw [Prod.mk.injEq] at hrun
  obtain ⟨hd, hst⟩ := hrun
  injection hd with hd
  subst hd
  subst hst
  refine ⟨?_, ?_, ?_, ?_⟩
  · simp only [refilledTokens]
    exact bool_if_true_iff
  · simp only [refilledTokens]
    exact min_le_right _ _
  · rw [alookup_ainsert_ne _ _ hne, alookup_ainsert_self]
    simp only [refilledTokens, bool_if_prop]
  · rw [alookup_ainsert_self]

/-- Witness for C5: the first check on a fresh bucket at t=2 (rate 60
per minute): full bucket, allowed, 59 tokens stored. -/
theorem C5_witness :
    refilledTokens 60 2000 (pyInt (2 * 1000)) 60 (get_interval_in_seconds "minute")
      ≤ ((60 : ℤ) : ℚ) ∧
    alookup ("tb:" ++ "w")
        (⟨[("tb:w", StoredVal.numF 59), ("tb:w:last", StoredVal.numI 2000)],
          [("tb:w", 62), ("tb:w:last", 62)]⟩ : MemState).data
      = some (StoredVal.numF
          (if refilledTokens 60 2000 (pyInt (2 * 1000)) 60 (get_interval_in_seconds "minute") ≥ 1
           then refilledTokens 60 2000 (pyInt (2 * 1000)) 60 (get_interval_in_seconds "minute") - 1
           else refilledTokens 60 2000 (pyInt (2 * 1000)) 60 (get_interval_in_seconds "minute"))) := by
  have hget : TokenBucket.get_bucket_state 2 (⟨[], []⟩ : MemState)
      ("tb:" ++ "w") ("tb:" ++ "w" ++ ":last") 60
      = (Except.ok (60, 2000), ⟨[], []⟩) := by
    simp only [TokenBucket.get_bucket_state, MemoryStorage.get, alookup]
    norm_num [pyInt]
  have hiv : get_interval_in_seconds "minute" = 60 := by decide
  have hrun : TokenBucket.check 2 (⟨[], []⟩ : MemState) "w" {}
      = (Except.ok { allowed := true, limit := 60, remaining := 59, reset := 1, retry_after := 0 },
         ⟨[("tb:w", StoredVal.numF 59), ("tb:w:last", StoredVal.numI 2000)],
          [("tb:w", 62), ("tb:w:last", 62)]⟩) := by
    simp only [TokenBucket.check, Option.getD_some, Option.getD_none, hiv, hget]
    simp only [MemoryStorage.set, ainsert]
    norm_num [pyInt]
    decide
  obtain ⟨h1, h2, h3, h4⟩ := C5_token_bucket_spec 2 ⟨[], []⟩ ⟨[], []⟩ _ "w" {} 60 2000 _
    hget (by decide) hrun
  exact ⟨h2, h3⟩

theorem get_snd_cases (t : ℚ) (st : MemState) (k : String) :
    (MemoryStorage.get t st k).2 = st ∨
    (MemoryStorage.get t st k).2 = ⟨aerase k st.data, aerase k st.expirations⟩ := by
  unfold MemoryStorage.get
  rcases h1 : alookup k st.data with _ | v
  · simp [h1]
  · rcases h2 : alookup k st.expirations with _ | exp
    · simp [h1, h2]
    · by_cases h3 : exp ≤ t
      · simp [h1, h2, h3]
      · simp [h1, h2, h3]

theorem alookup_get_ne (t : ℚ) (st : MemState) {k k2 : String} (h : k ≠ k2) :
    alookup k (MemoryStorage.get t st k2).2.data = alookup k st.data ∧
    alookup k (MemoryStorage.get t st k2).2.expirations = alookup k st.expirations := by
  rcases get_snd_cases t st k2 with h2 | h2 <;> rw [h2]
  · exact ⟨rfl, rfl⟩
  · exact ⟨alookup_aerase_ne _ h, alookup_aerase_ne _ h⟩

theorem get_none_lookup (t : ℚ) (st : MemState) (k : String)
    (h : (MemoryStorage.get t st k).1 = none) :
    alookup k (MemoryStorage.get t st k).2.data = none := by
  unfold MemoryStorage.get at h ⊢
  rcases h1 : alookup k st.data with _ | v
  · simp [h1]
  · rcases h2 : alookup k st.expirations with _ | exp
    · simp [h1, h2] at h
    · by_cases h3 : exp ≤ t
      · simp [h1, h2, h3, alookup_aerase_self]
      · simp [h1, h2, h3] at h

theorem get_fst_some (t : ℚ) (st : MemState) (k : String) (v : StoredVal)
    (h : (MemoryStorage.get t st k).1 = some v) :
    (MemoryStorage.get t st k).2 = st ∧ alookup k st.data = some v ∧
    (∀ exp, alookup k st.expirations = some exp → ¬(exp ≤ t)) := by
  unfold MemoryStorage.get at h ⊢
  rcases h1 : alookup k st.data with _ | v2
  · simp [h1] at h
  · rcases h2 : alookup k st.expirations with _ | exp
    · simp [h1, h2] at h
      simp [h1, h2, h]
    · by_cases h3 : exp ≤ t
      · simp [h1, h2, h3] at h
      · simp [h1, h2, h3] at h
        simp [h1, h2, h3, h]
        exact not_le.mp h3

theorem lookup_none_get (t : ℚ) (st : MemState) (k : String)
    (h : alookup k st.data = none) :
    MemoryStorage.get t st k = (none, st) := by
  unfold MemoryStorage.get
  simp [h]

theorem count_of_value_ok {o : Option StoredVal} {n : ℤ} (h : SlidingWindow.count_of_value o = Except.ok n) :
    o = some (StoredVal.numI n) ∨ (o = none ∧ n = 0) := by
  cases o with
  | none =>
    right
    simp [SlidingWindow.count_of_value] at h
    exact ⟨rfl, h.symm⟩
  | some v =>
    cases v with
    | numI m =>
      left
      simp [SlidingWindow.count_of_value, parseInt] at h
      rw [h]
    | numF q => simp [SlidingWindow.count_of_value, parseInt] at h
    | raw s => simp [SlidingWindow.count_of_value, parseInt] at h

/-- Stability of the current-window read: if the two-window read of
`get_window_counts` succeeded with current count `c`, re-reading the
current key in the returned state yields exactly the value behind `c`
(or nothing, when `c` defaulted to 0). -/
theorem window_count_stable (t : ℚ) (st st1 : MemState) (ck pk : String) (c p : ℤ)
    (hne : ck ≠ pk)
    (h : SlidingWindow.get_window_counts t st ck pk = (Except.ok (c, p), st1)) :
    MemoryStorage.get t st1 ck = (some (StoredVal.numI c), st1) ∨
    ((MemoryStorage.get t st1 ck).1 = none ∧ c = 0) := by
  simp only [SlidingWindow.get_window_counts] at h
  rcases hc : SlidingWindow.count_of_value (MemoryStorage.get t st ck).1 with e | c2
  · rw [hc] at h
    simp at h
  · rw [hc] at h
    simp only [] at h
    rcases hp2 : SlidingWindow.count_of_value (MemoryStorage.get t (MemoryStorage.get t st ck).2 pk).1
      with e | p2
    · rw [hp2] at h
      simp at h
    · rw [hp2] at h
      simp only [] at h
      rw [Prod.mk.injEq] at h
      obtain ⟨hok, hst⟩ := h
      injection hok with hok
      injection hok with hcc hpp
      subst hcc
      rcases count_of_value_ok hc with hsome | ⟨hnone, hc0⟩
      · obtain ⟨hsnd, hlv, hexp⟩ := get_fst_some t st ck _ hsome
        left
        have h4 := alookup_get_ne t (MemoryStorage.get t st ck).2 hne
        have hl1 : alookup ck st1.data = some (StoredVal.numI c2) := by
          rw [← hst, h4.1, hsnd]
          exact hlv
        have hl2 : alookup ck st1.expirations = alookup ck st.expirations := by
          rw [← hst, h4.2, hsnd]
        unfold MemoryStorage.get
        rw [hl1]
        simp only []
        rcases h5 : alookup ck st1.expirations with _ | exp
        · rfl
        · simp only []
          rw [if_neg (hexp exp (by rw [← hl2]; exact h5))]
      · right
        have hl1 : alookup ck st1.data = none := by
          rw [← hst, (alookup_get_ne t (MemoryStorage.get t st ck).2 hne).1]
          exact get_none_lookup t st ck hnone
        rw [lookup_none_get t st1 ck hl1]
        exact ⟨rfl, hc0⟩

/-- Claim C4: for a sliding-window check that read counts `(c, p)`, the
weighted count is `c + p × (1 − window_position)` with
`window_position = (now mod interval_seconds) / interval_seconds`; the
request is allowed exactly when that weighted count is below the rate;
`remaining` is computed from the same weighted count; and when allowed
the current window counter is incremented to `c + 1` and its TTL
refreshed to expire at `t + 2 × interval_seconds` (when denied, the
store is untouched). -/
theorem C4_sliding_window_spec (t : ℚ) (st st1 st2 : MemState) (identifier : String)
    (opts : Options) (c p : ℤ) (d : Decision)
    (hget : SlidingWindow.get_window_counts t st
        (swCurrentKey identifier t (get_interval_in_seconds (opts.interval.getD "minute")))
        (swPreviousKey identifier t (get_interval_in_seconds (opts.interval.getD "minute")))
      = (Except.ok (c, p), st1))
    (hne : swCurrentKey identifier t (get_interval_in_seconds (opts.interval.getD "minute"))
         ≠ swPreviousKey identifier t (get_interval_in_seconds (opts.interval.getD "minute")))
    (hrun : SlidingWindow.check t st identifier opts = (Except.ok d, st2)) :
    (d.allowed = true ↔
      (c : ℚ) + (p : ℚ) *
          (1 - ((Int.emod (pyInt t) (get_interval_in_seconds (opts.interval.getD "minute")) : ℤ) : ℚ)
               / ((get_interval_in_seconds (opts.interval.getD "minute") : ℤ) : ℚ))
        < ((opts.rate.getD 60 : ℤ) : ℚ)) ∧
    d.remaining = max 0 (pyInt (((opts.rate.getD 60 : ℤ) : ℚ)
      - ((c : ℚ) + (p : ℚ) *
          (1 - ((Int.emod (pyInt t) (get_interval_in_seconds (opts.interval.getD "minute")) : ℤ) : ℚ)
               / ((get_interval_in_seconds (opts.interval.getD "minute") : ℤ) : ℚ)))
      - (if (c : ℚ) + (p : ℚ) *
            (1 - ((Int.emod (pyInt t) (get_interval_in_seconds (opts.interval.getD "minute")) : ℤ) : ℚ)
                 / ((get_interval_in_seconds (opts.interval.getD "minute") : ℤ) : ℚ))
            < ((opts.rate.getD 60 : ℤ) : ℚ) then 1 else 0))) ∧
    (d.allowed = true →
      alookup (swCurrentKey identifier t (get_interval_in_seconds (opts.interval.getD "minute")))
          st2.data = some (StoredVal.numI (c + 1)) ∧
      alookup (swCurrentKey identifier t (get_interval_in_seconds (opts.interval.getD "minute")))
          st2.expirations
        = some (t + ((get_interval_in_seconds (opts.interval.getD "minute") * 2 : ℤ) : ℚ))) ∧
    (d.allowed = false → st2 = st1) := by
  simp only [swCurrentKey, swPreviousKey] at hget hne ⊢
  simp only [SlidingWindow.check, hget] at hrun
  rw [Prod.mk.injEq] at hrun
  obtain ⟨hd, hst⟩ := hrun
  injection hd with hd
  subst hd
  subst hst
  refine ⟨bool_if_true_iff, by simp only [bool_if_prop], ?_, ?_⟩
  · intro hA
    rw [bool_if_true_iff] at hA
    simp only [bool_if_prop, if_pos hA]
    rcases window_count_stable t st _ _ _ c p hne hget with hsome | ⟨hnone, hc0⟩
    · simp [MemoryStorage.incr, hsome, parseInt, MemoryStorage.set,
        MemoryStorage.expire, alookup_ainsert_self]
    · subst hc0
      simp [MemoryStorage.incr, hnone, parseInt, MemoryStorage.set,
        MemoryStorage.expire, alookup_ainsert_self]
  · intro hA
    rw [bool_if_false_iff] at hA
    simp only [bool_if_prop, if_neg hA]
    simp

/-- Witness for C4: the first sliding-window check at t=1000 (rate 5
per minute) — counter incremented to 1, TTL set to expire at 1120. -/
theorem C4_witness :
    alookup (swCurrentKey "ip:unknown" 1000
        (get_interval_in_seconds (exOptions.interval.getD "minute")))
      (SlidingWindow.check 1000 (⟨[], []⟩ : MemState) "ip:unknown" exOptions).2.data
      = some (StoredVal.numI (0 + 1)) ∧
    alookup (swCurrentKey "ip:unknown" 1000
        (get_interval_in_seconds (exOptions.interval.getD "minute")))
      (SlidingWindow.check 1000 (⟨[], []⟩ : MemState) "ip:unknown" exOptions).2.expirations
      = some (1000 + ((get_interval_in_seconds (exOptions.interval.getD "minute") * 2 : ℤ) : ℚ)) := by
  obtain ⟨h1, h2, h3, h4⟩ := C4_sliding_window_spec 1000 ⟨[], []⟩ ⟨[], []⟩ _ "ip:unknown"
    exOptions 0 0 _ (by decide) (by decide) exSwCheck_eval
  obtain ⟨ha, hb⟩ := h3 rfl
  rw [exSwCheck_eval]
  exact ⟨ha, hb⟩

/-- Claim C3 (counterexample): a token-bucket check at rate 60/minute
with 0 tokens stored and 500 ms elapsed is denied — the next token is
half a second away, not at a refill boundary — yet
`retry_after_seconds` is 0, because `int(ms_until_refill / 1000)`
truncates any sub-second wait to 0. -/
theorem C3_retry_counterexample :
    (TokenBucket.check 1000
        ⟨[("tb:cli", StoredVal.numF 0), ("tb:cli:last", StoredVal.numI 999500)], []⟩
        "cli" { rate := some 60, interval := some "minute" }).1
      = Except.ok { allowed := false, limit := 60, remaining := 0, reset := 0, retry_after := 0 } := by
  have hs : TokenBucket.get_bucket_state 1000
      ⟨[("tb:cli", StoredVal.numF 0), ("tb:cli:last", StoredVal.numI 999500)], []⟩
      ("tb:" ++ "cli") ("tb:" ++ "cli" ++ ":last") 60
      = (Except.ok (0, 999500),
         ⟨[("tb:cli", StoredVal.numF 0), ("tb:cli:last", StoredVal.numI 999500)], []⟩) := by
    decide
  have hiv : get_interval_in_seconds "minute" = 60 := by decide
  simp only [TokenBucket.check, Option.getD_some, hiv, hs]
  norm_num [pyInt]

/-- Claim C3 (amended): for checks that read well-formed state (token
count and window counts non-negative, last update not in the future,
rate at least 1), `remaining` lies in `[0, rate]` for both algorithms
and `retry_after` is 0 whenever the request is allowed; when denied,
the sliding window always reports `retry_after ≥ 1`, but the token
bucket only guarantees `retry_after ≥ 0` — it reports 0 whenever less
than one second remains until the next token, not only at the exact
instant of a boundary. -/
theorem C3_decision_bounds (t : ℚ) (st st1 st1w st2 st2w : MemState) (identifier : String)
    (opts : Options) (ct : ℚ) (lu : ℤ) (c p : ℤ) (d1 d2 : Decision)
    (hrate : 1 ≤ opts.rate.getD 60)
    (hget : TokenBucket.get_bucket_state t st ("tb:" ++ identifier)
        ("tb:" ++ identifier ++ ":last") (opts.rate.getD 60) = (Except.ok (ct, lu), st1))
    (hct : 0 ≤ ct) (hlu : lu ≤ pyInt (t * 1000))
    (hrun : TokenBucket.check t st identifier opts = (Except.ok d1, st2))
    (hgetw : SlidingWindow.get_window_counts t st
        (swCurrentKey identifier t (get_interval_in_seconds (opts.interval.getD "minute")))
        (swPreviousKey identifier t (get_interval_in_seconds (opts.interval.getD "minute")))
      = (Except.ok (c, p), st1w))
    (hc : 0 ≤ c) (hp : 0 ≤ p)
    (hrunw : SlidingWindow.check t st identifier opts = (Except.ok d2, st2w)) :
    (0 ≤ d1.remaining ∧ d1.remaining ≤ d1.limit ∧
     (d1.allowed = true → d1.retry_after = 0) ∧
     (d1.allowed = false → 0 ≤ d1.retry_after)) ∧
    (0 ≤ d2.remaining ∧ d2.remaining ≤ d2.limit ∧
     (d2.allowed = true → d2.retry_after = 0) ∧
     (d2.allowed = false → 1 ≤ d2.retry_after)) := by
  have hivpos := get_interval_in_seconds_pos (opts.interval.getD "minute")
  have hivQ : (0 : ℚ) < ((get_interval_in_seconds (opts.interval.getD "minute") : ℤ) : ℚ) := by
    exact_mod_cast hivpos
  have hrateQ : (1 : ℚ) ≤ ((opts.rate.getD 60 : ℤ) : ℚ) := by exact_mod_cast hrate
  constructor
  · -- token bucket bounds
    simp only [TokenBucket.check, hget] at hrun
    rw [Prod.mk.injEq] at hrun
    obtain ⟨hd, hst⟩ := hrun
    injection hd with hd
    subst hd
    simp only [bool_if_prop, bool_if_true_iff, bool_if_false_iff]
    have helQ : (0 : ℚ) ≤ ((pyInt (t * 1000) - lu : ℤ) : ℚ) := by
      have h0 : (0 : ℤ) ≤ pyInt (t * 1000) - lu := by omega
      exact_mod_cast h0
    have hrr : (0 : ℚ) < ((opts.rate.getD 60 : ℤ) : ℚ)
        / ((get_interval_in_seconds (opts.interval.getD "minute") : ℤ) : ℚ) :=
      div_pos (lt_of_lt_of_le one_pos hrateQ) hivQ
    have hrefill : (0 : ℚ) ≤ ((pyInt (t * 1000) - lu : ℤ) : ℚ) / 1000 *
        (((opts.rate.getD 60 : ℤ) : ℚ)
          / ((get_interval_in_seconds (opts.interval.getD "minute") : ℤ) : ℚ)) :=
      mul_nonneg (div_nonneg helQ (by norm_num)) (le_of_lt hrr)
    have hnt0 : (0 : ℚ) ≤ min (ct + ((pyInt (t * 1000) - lu : ℤ) : ℚ) / 1000 *
        (((opts.rate.getD 60 : ℤ) : ℚ)
          / ((get_interval_in_seconds (opts.interval.getD "minute") : ℤ) : ℚ)))
        ((opts.rate.getD 60 : ℤ) : ℚ) :=
      le_min (add_nonneg hct hrefill) (le_trans (by norm_num) hrateQ)
    have hnt0le : min (ct + ((pyInt (t * 1000) - lu : ℤ) : ℚ) / 1000 *
        (((opts.rate.getD 60 : ℤ) : ℚ)
          / ((get_interval_in_seconds (opts.interval.getD "minute") : ℤ) : ℚ)))
        ((opts.rate.getD 60 : ℤ) : ℚ) ≤ ((opts.rate.getD 60 : ℤ) : ℚ) :=
      min_le_right _ _
    by_cases hA : min (ct + ((pyInt (t * 1000) - lu : ℤ) : ℚ) / 1000 *
        (((opts.rate.getD 60 : ℤ) : ℚ)
          / ((get_interval_in_seconds (opts.interval.getD "minute") : ℤ) : ℚ)))
        ((opts.rate.getD 60 : ℤ) : ℚ) ≥ 1
    · simp only [if_pos hA]
      exact ⟨pyInt_nonneg (by linarith), pyInt_le_int (by linarith),
        fun _ => trivial, fun _ => le_refl 0⟩
    · simp only [if_neg hA]
      refine ⟨pyInt_nonneg hnt0, pyInt_le_int hnt0le,
        fun hc => absurd hc hA, fun _ => ?_⟩
      apply pyInt_nonneg
      apply div_nonneg _ (by norm_num : (0 : ℚ) ≤ 1000)
      apply mul_nonneg _ (by norm_num : (0 : ℚ) ≤ 1000)
      apply div_nonneg _ (le_of_lt hrr)
      linarith [not_le.mp hA]
  · -- sliding window bounds
    simp only [swCurrentKey, swPreviousKey] at hgetw
    simp only [SlidingWindow.check, hgetw] at hrunw
    rw [Prod.mk.injEq] at hrunw
    obtain ⟨hd, hst⟩ := hrunw
    injection hd with hd
    subst hd
    simp only [bool_if_prop, bool_if_true_iff, bool_if_false_iff]
    have hem0 : (0 : ℤ) ≤ Int.emod (pyInt t)
        (get_interval_in_seconds (opts.interval.getD "minute")) :=
      Int.emod_nonneg _ (ne_of_gt hivpos)
    have hemlt : Int.emod (pyInt t) (get_interval_in_seconds (opts.interval.getD "minute"))
        < get_interval_in_seconds (opts.interval.getD "minute") :=
      Int.emod_lt_of_pos _ hivpos
    have hpos01 : (0 : ℚ) ≤ 1 -
        ((Int.emod (pyInt t) (get_interval_in_seconds (opts.interval.getD "minute")) : ℤ) : ℚ)
        / ((get_interval_in_seconds (opts.interval.getD "minute") : ℤ) : ℚ) := by
      have hle : ((Int.emod (pyInt t) (get_interval_in_seconds (opts.interval.getD "minute")) : ℤ) : ℚ)
          / ((get_interval_in_seconds (opts.interval.getD "minute") : ℤ) : ℚ) ≤ 1 := by
        rw [div_le_one hivQ]
        exact_mod_cast le_of_lt hemlt
      linarith
    have hw0 : (0 : ℚ) ≤ (c : ℚ) + (p : ℚ) *
        (1 - ((Int.emod (pyInt t) (get_interval_in_seconds (opts.interval.getD "minute")) : ℤ) : ℚ)
          / ((get_interval_in_seconds (opts.interval.getD "minute") : ℤ) : ℚ)) := by
      have hcQ : (0 : ℚ) ≤ (c : ℚ) := by exact_mod_cast hc
      have hpQ : (0 : ℚ) ≤ (p : ℚ) := by exact_mod_cast hp
      exact add_nonneg hcQ (mul_nonneg hpQ hpos01)
    by_cases hA : (c : ℚ) + (p : ℚ) *
        (1 - ((Int.emod (pyInt t) (get_interval_in_seconds (opts.interval.getD "minute")) : ℤ) : ℚ)
          / ((get_interval_in_seconds (opts.interval.getD "minute") : ℤ) : ℚ))
        < ((opts.rate.getD 60 : ℤ) : ℚ)
    · simp only [if_pos hA]
      refine ⟨le_max_left _ _, ?_, fun _ => trivial, fun hfalse => absurd hA hfalse⟩
      apply max_le (le_trans (by norm_num) hrate)
      apply pyInt_le_int
      linarith
    · simp only [if_neg hA]
      refine ⟨le_max_left _ _, ?_, fun hc2 => absurd hc2 hA, fun _ => ?_⟩
      · apply max_le (le_trans (by norm_num) hrate)
        apply pyInt_le_int
        linarith
      · omega

/-- Witness for C3: first checks at t=2 on a fresh store with the
default policy (60/minute) for both algorithms. -/
theorem C3_witness :
    (0 ≤ (Decision.mk true 60 59 1 0).remaining ∧
     (Decision.mk true 60 59 1 0).remaining ≤ (Decision.mk true 60 59 1 0).limit ∧
     ((Decision.mk true 60 59 1 0).allowed = true → (Decision.mk true 60 59 1 0).retry_after = 0) ∧
     ((Decision.mk true 60 59 1 0).allowed = false →
        0 ≤ (Decision.mk true 60 59 1 0).retry_after)) ∧
    (0 ≤ (Decision.mk true 60 59 58 0).remaining ∧
     (Decision.mk true 60 59 58 0).remaining ≤ (Decision.mk true 60 59 58 0).limit ∧
     ((Decision.mk true 60 59 58 0).allowed = true →
        (Decision.mk true 60 59 58 0).retry_after = 0) ∧
     ((Decision.mk true 60 59 58 0).allowed = false →
        1 ≤ (Decision.mk true 60 59 58 0).retry_after)) := by
  have hiv : get_interval_in_seconds "minute" = 60 := by decide
  have hget : TokenBucket.get_bucket_state 2 (⟨[], []⟩ : MemState)
      ("tb:" ++ "w") ("tb:" ++ "w" ++ ":last") 60
      = (Except.ok (60, 2000), ⟨[], []⟩) := by
    simp only [TokenBucket.get_bucket_state, MemoryStorage.get, alookup]
    norm_num [pyInt]
  have hrun : TokenBucket.check 2 (⟨[], []⟩ : MemState) "w" {}
      = (Except.ok { allowed := true, limit := 60, remaining := 59, reset := 1, retry_after := 0 },
         ⟨[("tb:w", StoredVal.numF 59), ("tb:w:last", StoredVal.numI 2000)],
          [("tb:w", 62), ("tb:w:last", 62)]⟩) := by
    simp only [TokenBucket.check, Option.getD_some, Option.getD_none, hiv, hget]
    simp only [MemoryStorage.set, ainsert]
    norm_num [pyInt]
    decide
  have hgetw : SlidingWindow.get_window_counts 2 (⟨[], []⟩ : MemState)
      (swCurrentKey "w" 2 (get_interval_in_seconds (({} : Options).interval.getD "minute")))
      (swPreviousKey "w" 2 (get_interval_in_seconds (({} : Options).interval.getD "minute")))
      = (Except.ok (0, 0), ⟨[], []⟩) := by decide
  have hrunw : SlidingWindow.check 2 (⟨[], []⟩ : MemState) "w" {}
      = (Except.ok { allowed := true, limit := 60, remaining := 59, reset := 58, retry_after := 0 },
         ⟨[("sw:w:0", StoredVal.numI 1)], [("sw:w:0", 122)]⟩) := by
    have hcw : Int.fdiv (pyInt 2) 60 * 60 = 0 := by decide
    have hem : Int.emod (pyInt 2) 60 = 2 := by decide
    have hgw : SlidingWindow.get_window_counts 2 (⟨[], []⟩ : MemState)
        ("sw:" ++ "w" ++ ":" ++ toString (0 : ℤ))
        ("sw:" ++ "w" ++ ":" ++ toString (0 - 60 : ℤ)) = (Except.ok (0, 0), ⟨[], []⟩) := by
      decide
    simp only [SlidingWindow.check, Option.getD_none, Option.getD_some, hiv, hcw, hem, hgw]
    simp only [MemoryStorage.incr, MemoryStorage.get, MemoryStorage.set, MemoryStorage.expire,
      alookup, ainsert, aerase, parseInt]
    norm_num [pyInt]
    decide
  exact C3_decision_bounds 2 ⟨[], []⟩ ⟨[], []⟩ ⟨[], []⟩ _ _ "w" {} 60 2000 0 0 _ _
    (by decide) hget (by norm_num) (by norm_num [pyInt]) hrun hgetw (by decide) (by decide) hrunw

/-- Claim C6: identity resolution follows the priority order
authenticated user id (only when the `client_identifier` option is
`user_id`), then API-key header, then source IP; the literal "unknown"
fallback is the resolved address exactly when no IP signal is present,
so the identifier degrades to `ip:unknown` only when no signal at all
is present. The hypotheses state that genuine signals never carry the
literal string "unknown" themselves. -/
theorem C6_identity_resolution (cfg : Option String) (req : Request)
    (hch : ∀ h, req.client_host = some h → h ≠ "unknown")
    (hra : ∀ h, req.remote_addr = some h → h ≠ "unknown")
    (hhd : req.x_forwarded_for ≠ none ∨ req.x_real_ip ≠ none → headerIp req ≠ "unknown") :
    (∀ uid, req.user_id = some uid → uid ≠ "" → cfg = some "user_id" →
        RateLimiter.get_client_identifier cfg req = "user:" ++ uid) ∧
    (∀ k, ¬(cfg = some "user_id" ∧ ∃ uid, req.user_id = some uid ∧ uid ≠ "") →
        req.x_api_key = some k → k ≠ "" →
        RateLimiter.get_client_identifier cfg req = "apikey:" ++ k) ∧
    (¬(cfg = some "user_id" ∧ ∃ uid, req.user_id = some uid ∧ uid ≠ "") →
     ¬(∃ k, req.x_api_key = some k ∧ k ≠ "") →
        RateLimiter.get_client_identifier cfg req = "ip:" ++ (normalize_client_info req).ip) ∧
    ((normalize_client_info req).ip = "unknown" ↔
        req.client_host = none ∧ (∀ h, req.remote_addr = some h → h = "") ∧
        req.x_forwarded_for = none ∧ req.x_real_ip = none) := by
  refine ⟨?_, ?_, ?_, ?_⟩
  · intro uid h1 h2 h3
    simp [RateLimiter.get_client_identifier, normalize_client_info, h1, h2, h3]
  · intro k hnu hk hk2
    cases hu : req.user_id with
    | none => simp [RateLimiter.get_client_identifier, normalize_client_info, hu, hk, hk2]
    | some uid =>
      have hcond : ¬(uid ≠ "" ∧ cfg = some "user_id") :=
        fun hand => hnu ⟨hand.2, uid, hu, hand.1⟩
      simp only [RateLimiter.get_client_identifier, normalize_client_info]
      simp [hu, hk, hk2, hcond]
  · intro hnu hnk
    have hapi : ∀ k, req.x_api_key = some k → k = "" := by
      intro k hk
      by_cases hke : k = ""
      · exact hke
      · exact absurd ⟨k, hk, hke⟩ hnk
    cases hu : req.user_id with
    | none =>
      cases hk : req.x_api_key with
      | none => simp [RateLimiter.get_client_identifier, normalize_client_info, hu, hk]
      | some k =>
        have hke := hapi k hk
        subst hke
        simp [RateLimiter.get_client_identifier, normalize_client_info, hu, hk]
    | some uid =>
      have hcond : ¬(uid ≠ "" ∧ cfg = some "user_id") :=
        fun hand => hnu ⟨hand.2, uid, hu, hand.1⟩
      cases hk : req.x_api_key with
      | none =>
        simp only [RateLimiter.get_client_identifier, normalize_client_info]
        simp [hu, hk, hcond]
      | some k =>
        have hke := hapi k hk
        subst hke
        simp only [RateLimiter.get_client_identifier, normalize_client_info]
        simp [hu, hk, hcond]
  · cases hch2 : req.client_host with
    | some hhost =>
      have hne := hch hhost hch2
      simp [normalize_client_info, hch2, hne]
    | none =>
      have hcontains : ("unknown".data.contains ',') = false := by decide
      cases hra2 : req.remote_addr with
      | some ra =>
        by_cases hre : ra = ""
        · subst hre
          cases hxf : req.x_forwarded_for with
          | some v =>
            have hne := hhd (by simp [hxf])
            simp [normalize_client_info, hch2, hra2, hxf, hne]
          | none =>
            cases hxr : req.x_real_ip with
            | some v =>
              have hne := hhd (by simp [hxr])
              simp [normalize_client_info, hch2, hra2, hxf, hxr, hne]
            | none =>
              have hip : headerIp req = "unknown" := by
                simp [headerIp, hxf, hxr, hcontains]
              simp [normalize_client_info, hch2, hra2, hxf, hxr, hip]
        · have hne := hra ra hra2
          simp [normalize_client_info, hch2, hra2, hre, hne]
      | none =>
        cases hxf : req.x_forwarded_for with
        | some v =>
          have hne := hhd (by simp [hxf])
          simp [normalize_client_info, hch2, hra2, hxf, hne]
        | none =>
          cases hxr : req.x_real_ip with
          | some v =>
            have hne := hhd (by simp [hxr])
            simp [normalize_client_info, hch2, hra2, hxf, hxr, hne]
          | none =>
            have hip : headerIp req = "unknown" := by
              simp [headerIp, hxf, hxr, hcontains]
            simp [normalize_client_info, hch2, hra2, hxf, hxr, hip]

/-- Witness for C6: a request with no identity signal at all resolves
to the literal fallback `ip:unknown`. -/
theorem C6_witness :
    (normalize_client_info ({} : Request)).ip = "unknown" ∧
    RateLimiter.get_client_identifier none ({} : Request)
      = "ip:" ++ (normalize_client_info ({} : Request)).ip := by
  obtain ⟨h1, h2, h3, h4⟩ := C6_identity_resolution none {}
    (fun h hh => by simp at hh)
    (fun h hh => by simp at hh)
    (fun hor => by rcases hor with h | h <;> simp at h)
  refine ⟨h4.mpr ⟨rfl, fun h hh => by simp at hh, rfl, rfl⟩, h3 ?_ ?_⟩
  · rintro ⟨hcfg, -⟩
    exact Option.noConfusion hcfg
  · rintro ⟨k, hk, -⟩
    exact Option.noConfusion hk
